import Mathlib

/-!
Shallow embedding of the telegram-chat-getter repository (Python) in Lean 4,
together with proofs that settle the frozen claims about its specification.

Conventions of the embedding:
- A Python `datetime` is modelled as an `Int` timestamp: `datetime` values in
  this code base are only compared, min/maxed and used as sort keys, so any
  linearly ordered carrier is faithful.
- A Python string is modelled as `String`, or as `List Char` where the claim
  is about individual characters (the filename sanitizers).
- Optional values (`None`) are modelled with `Option`.
- Python truthiness of an optional string (`if x:`) is `pyTruthy`: `None`
  and the empty string are falsy.
- Fallible operations are modelled with `Except`: `Except.error` stands for a
  raised exception.
- Keyword-argument calls are additionally modelled by the list of parameter
  names a function accepts and the list of keyword names a call site supplies;
  Python raises `TypeError` when a supplied keyword is not an accepted
  parameter name.
-/

/-- The `Message` dataclass of `downloader.py` (lines 51-74), field for field.
Note: the source dataclass declares exactly these eight fields; it has no
`transcription` field (this is load-bearing for claim C3). -/
structure Message where
  id : Int
  date : Int
  sender_id : Int
  sender_name : String
  text : String
  reply_to : Option Int := none
  media_type : Option String := none
  media_path : Option String := none
deriving DecidableEq, Repr

/-- Python truthiness of an optional string: `None` and `""` are falsy,
every other string is truthy. -/
def pyTruthy : Option String → Bool
  | none => false
  | some s => !s.isEmpty

/-- A message dict as stored in `messages.json` (the keys written by
`export_messages_to_json.message_to_dict`, exporter.py lines 323-335). -/
structure StoredMessage where
  id : Int
  date : String
  sender_id : Int
  sender_name : String
  text : String
  reply_to : Option Int := none
  media_type : Option String := none
  media_path : Option String := none
  transcription : Option String := none
deriving DecidableEq, Repr

/-- The function `load_existing_messages` of exporter.py (lines 28-54).
The input models the file system state: `none` means `messages.json` does not
exist; `some data` is the parsed JSON object, where `data` is the value of
`data.get("messages", [])` before the default is applied (`none` when the
`"messages"` key is absent).  On a nonempty list the second component is
`max(m["id"] for m in messages)`, folded exactly as Python's `max` over the
generator. -/
def load_existing_messages (file : Option (Option (List StoredMessage))) :
    List StoredMessage × Int :=
  match file with
  | none => ([], 0)
  | some data =>
    match data.getD [] with
    | [] => ([], 0)
    | m :: ms => (m :: ms, (ms.map StoredMessage.id).foldl max m.id)

/-- The media-file count computed by `export_to_markdown` (exporter.py line
175): `sum(1 for msg in messages if msg.media_type and msg.media_path)`. -/
def markdownMediaCount (messages : List Message) : Nat :=
  messages.countP fun msg => pyTruthy msg.media_type && pyTruthy msg.media_path

/-- The `media_files` object of `metadata.json` (exporter.py lines 252-257). -/
structure MediaCounts where
  images : Nat
  audio : Nat
  video : Nat
  documents : Nat
deriving DecidableEq, Repr

/-- One iteration of the media-counting loop of `generate_metadata`
(exporter.py lines 259-268): the `if msg.media_type and msg.media_path`
guard followed by the `if`/`elif` chain on `media_type`. -/
def countMediaStep (c : MediaCounts) (msg : Message) : MediaCounts :=
  if pyTruthy msg.media_type && pyTruthy msg.media_path then
    if msg.media_type = some "photo" then { c with images := c.images + 1 }
    else if msg.media_type = some "audio" then { c with audio := c.audio + 1 }
    else if msg.media_type = some "video" then { c with video := c.video + 1 }
    else if msg.media_type = some "document" then
      { c with documents := c.documents + 1 }
    else c
  else c

/-- The whole media-counting loop of `generate_metadata` (exporter.py lines
252-268), starting from all-zero counters. -/
def countMedia (messages : List Message) : MediaCounts :=
  messages.foldl countMediaStep ⟨0, 0, 0, 0⟩

/-- Python `min` over a possibly empty list (`None` on the empty list, to
mirror the `if messages:` guard of `generate_metadata`). -/
def listMinPy : List Int → Option Int
  | [] => none
  | d :: ds => some (ds.foldl min d)

/-- Python `max` over a possibly empty list. -/
def listMaxPy : List Int → Option Int
  | [] => none
  | d :: ds => some (ds.foldl max d)

/-- The metadata object written by `generate_metadata` (exporter.py lines
221-295), restricted to the fields that are functions of the message list
(the wall-clock `downloaded_at` field and the chat name/id/type arguments,
which are passed through verbatim, are omitted). -/
structure Metadata where
  total_messages : Nat
  media_files : MediaCounts
  date_from : Option Int
  date_to : Option Int
deriving DecidableEq, Repr

/-- The function `generate_metadata` of exporter.py (lines 221-295):
`total_messages = len(messages)`, the media counts of the counting loop, and
`date_range` from `min(dates)` / `max(dates)` over
`dates = [msg.date for msg in messages]`, `None`/`None` when empty. -/
def generate_metadata (messages : List Message) : Metadata :=
  { total_messages := messages.length
    media_files := countMedia messages
    date_from := listMinPy (messages.map Message.date)
    date_to := listMaxPy (messages.map Message.date) }

/-- The incremental-sync merge of `_download_async` (cli.py lines 397-411):
`existing_ids = {m.id for m in existing_messages}`;
`new_unique = [m for m in messages if m.id not in existing_ids]`;
`all_messages = existing_messages + new_unique`;
`all_messages.sort(key=lambda m: m.date)`.  Python's `list.sort` is a stable
merge sort, modelled by `List.mergeSort` on the date key. -/
def syncMerge (existing newMsgs : List Message) : List Message :=
  let existingIds := existing.map Message.id
  let newUnique := newMsgs.filter fun m => decide (m.id ∉ existingIds)
  let allMessages := existing ++ newUnique
  allMessages.mergeSort fun a b => decide (a.date ≤ b.date)

/-- The chat type string constants of chats.py (lines 20-23). -/
def CHAT_TYPE_PRIVATE : String := "private"

/-- Chat type constant for groups. -/
def CHAT_TYPE_GROUP : String := "group"

/-- Chat type constant for broadcast channels. -/
def CHAT_TYPE_CHANNEL : String := "channel"

/-- Chat type constant for unrecognized entity classes. -/
def CHAT_TYPE_UNKNOWN : String := "unknown"

/-- A Telegram entity as seen by `get_chat_type`: only its class name and its
optional `broadcast` attribute are inspected (`getattr(entity, "broadcast",
False)` reads `False` when the attribute is missing, modelled by
`Option.getD false`). -/
structure TelegramEntity where
  className : String
  broadcast : Option Bool
deriving DecidableEq, Repr

/-- The function `get_chat_type` of chats.py (lines 26-48). -/
def get_chat_type (entity : TelegramEntity) : String :=
  if entity.className = "User" then CHAT_TYPE_PRIVATE
  else if entity.className = "Chat" then CHAT_TYPE_GROUP
  else if entity.className = "Channel" then
    if entity.broadcast.getD false then CHAT_TYPE_CHANNEL else CHAT_TYPE_GROUP
  else CHAT_TYPE_UNKNOWN

/-- The nine characters both sanitizers treat as invalid:
`< > : " / \ | ? *`. -/
def INVALID_FILENAME_CHARS : List Char :=
  ['<', '>', ':', '"', '/', '\\', '|', '?', '*']

/-- The characters Python's `str.strip()` removes for ASCII input: space,
tab, newline, carriage return, vertical tab, form feed. -/
def PY_WHITESPACE : List Char := [' ', '\t', '\n', '\r', '\u000b', '\u000c']

/-- Python's two-sided strip of the characters in `ws`. -/
def pyStrip (ws : List Char) (s : List Char) : List Char :=
  ((s.dropWhile fun c => decide (c ∈ ws)).reverse.dropWhile
    fun c => decide (c ∈ ws)).reverse

/-- The sanitizer `_sanitize_filename` of cli.py (lines 540-547), the one the
download command applies to the chat directory name: each of the nine invalid
characters is replaced by an underscore (the sequence of `str.replace` calls
is a character-wise map, since each call replaces a single character by `_`,
which is never itself replaced), then `.strip()` removes surrounding
whitespace. -/
def cli_sanitize_filename (name : List Char) : List Char :=
  pyStrip PY_WHITESPACE
    (name.map fun c => if c ∈ INVALID_FILENAME_CHARS then '_' else c)

/-- The character class of the regex in `utils.sanitize_filename`:
the nine invalid characters plus the control range x00-x1f. -/
def utilsInvalidChar (c : Char) : Bool :=
  decide (c ∈ INVALID_FILENAME_CHARS) || decide (c.toNat ≤ 0x1f)

/-- The function `sanitize_filename` of utils.py (lines 31-57): empty input
falls back to "unnamed"; the regex substitution replaces every character of
the invalid class by an underscore; leading and trailing dots and spaces are
stripped; an empty remainder falls back to "unnamed". -/
def sanitize_filename (filename : List Char) : List Char :=
  if filename = [] then "unnamed".toList
  else
    let sanitized := filename.map fun c => if utilsInvalidChar c then '_' else c
    let stripped := pyStrip ['.', ' '] sanitized
    if stripped = [] then "unnamed".toList else stripped

/-- Outcome of the awaited async body of a CLI command: success, or one of
the exception classes the command handlers distinguish.  Chat-not-found and
invalid input raised inside the async body surface as `typer.Exit(1)`, which
the surrounding handler re-raises with code 1 either way. -/
inductive AsyncOutcome where
  | success
  | authError
  | chatNotFound
  | networkError
  | otherError
deriving DecidableEq, Repr

/-- The `auth` command of cli.py (lines 69-85): run the async body; an
`AuthenticationError` or any other exception becomes `typer.Exit(code=1)`,
modelled as `Except.error 1`; normal completion is `Except.ok`. -/
def auth_command (r : AsyncOutcome) : Except Nat Unit :=
  match r with
  | .success => .ok ()
  | .authError => .error 1
  | .chatNotFound => .error 1
  | .networkError => .error 1
  | .otherError => .error 1

/-- The `list` command of cli.py (lines 100-143): more than one of
`--groups`/`--private`/`--channels` exits with code 1 before the async body
runs; otherwise the body's exceptions map to `typer.Exit(code=1)`. -/
def list_command (groups private_chats channels : Bool) (r : AsyncOutcome) :
    Except Nat Unit :=
  let filterCount := (if groups then 1 else 0) + (if private_chats then 1 else 0)
    + (if channels then 1 else 0)
  if filterCount > 1 then .error 1
  else
    match r with
    | .success => .ok ()
    | .authError => .error 1
    | .chatNotFound => .error 1
    | .networkError => .error 1
    | .otherError => .error 1

/-- The `download` command of cli.py (lines 190-286): missing chat name and
chat id exits 1; an invalid `--from`/`--to` date string exits 1 (`some false`
models a provided-but-unparseable date, `some true` a valid one, `none` an
absent option); otherwise the async body's exceptions map to
`typer.Exit(code=1)`. -/
def download_command (chat : String) (chatId : Option Int)
    (fromDateValid toDateValid : Option Bool) (r : AsyncOutcome) :
    Except Nat Unit :=
  if chat = "" ∧ chatId = none then .error 1
  else if fromDateValid = some false then .error 1
  else if toDateValid = some false then .error 1
  else
    match r with
    | .success => .ok ()
    | .authError => .error 1
    | .chatNotFound => .error 1
    | .networkError => .error 1
    | .otherError => .error 1

/-- The `main` entry point of cli.py (lines 572-583): `app()` completing
normally yields exit code 0, and a `typer.Exit(code)` raised by a command
surfaces as `SystemExit(code)`, caught and returned as the exit code. -/
def cli_main (commandResult : Except Nat Unit) : Nat :=
  match commandResult with
  | .ok _ => 0
  | .error code => code

/-- The function `transcribe_voice_message` of transcriber.py (lines 19-81)
from the caller's point of view: the Telegram request either raises (any
exception is caught and becomes `None`) or yields `getattr(result, "text",
None)`. -/
def transcribe_voice_message (result : Except Unit (Option String)) :
    Option String :=
  match result with
  | .ok text => text
  | .error _ => none

/-- The media-download loop of `_download_async` (cli.py lines 428-452) over
the per-item outcomes of `MediaDownloader.download_media`: an exception
raised by a download propagates (there is no try/except around the call), a
`None` return is skipped, a path increments `media_count`. -/
def media_download_loop (results : List (Except Unit (Option String))) :
    Except Unit Nat :=
  match results with
  | [] => .ok 0
  | .error e :: _ => .error e
  | .ok none :: rs => media_download_loop rs
  | .ok (some _) :: rs =>
    match media_download_loop rs with
    | .error e => .error e
    | .ok n => .ok (n + 1)

/-- The transcription loop of `_download_async` (cli.py lines 477-488) over
the per-item results of `transcribe_voice_message` (which is total): a
returned text increments `transcribe_count`, `None` increments
`failed_count`; the loop always runs to completion. -/
def transcribe_loop (results : List (Option String)) : Nat × Nat :=
  match results with
  | [] => (0, 0)
  | some _ :: rs => ((transcribe_loop rs).1 + 1, (transcribe_loop rs).2)
  | none :: rs => ((transcribe_loop rs).1, (transcribe_loop rs).2 + 1)

/-- The parameter names accepted by `MessageDownloader.download_messages`
(downloader.py lines 170-179). -/
def download_messages_params : List String :=
  ["chat", "from_date", "to_date", "limit", "progress_callback", "store",
    "fetch_total"]

/-- The keyword names `_download_async` supplies when calling
`downloader.download_messages` (cli.py lines 382-389). -/
def cli_download_call_kwargs : List String :=
  ["chat", "from_date", "to_date", "store", "reverse", "min_id"]

/-- The computation of the `min_id` and `reverse` arguments before the fetch
(cli.py lines 349-363): `reverse = download_all`; `min_id = 0 if download_all
else None`; in sync mode with a positive highest saved id, `min_id` becomes
that id and `reverse` becomes true. -/
def cli_sync_fetch_args (downloadAll : Bool) (sync : Bool) (lastId : Int) :
    Option Int × Bool :=
  let reverse := downloadAll
  let minId : Option Int := if downloadAll then some 0 else none
  if sync && decide (lastId > 0) then (some lastId, true) else (minId, reverse)

/-- The field names of the `Message` dataclass (downloader.py lines 51-74). -/
def message_field_names : List String :=
  ["id", "date", "sender_id", "sender_name", "text", "reply_to", "media_type",
    "media_path"]

/-- The keyword names `dict_to_message` passes to the `Message` constructor
(exporter.py lines 70-80). -/
def dict_to_message_kwargs : List String :=
  ["id", "date", "sender_id", "sender_name", "text", "reply_to", "media_type",
    "media_path", "transcription"]

/-- The attribute names read from a `Message` by
`export_messages_to_json.message_to_dict` (exporter.py lines 323-335). -/
def message_to_dict_attrs : List String :=
  ["id", "date", "sender_id", "sender_name", "text", "reply_to", "media_type",
    "media_path", "transcription"]

/-- Specification predicate: the metadata loop counts a message under
`images` exactly when the truthiness guard passes and `media_type` is
`"photo"`. -/
def isCountedPhoto (m : Message) : Bool :=
  (pyTruthy m.media_type && pyTruthy m.media_path)
    && decide (m.media_type = some "photo")

/-- Specification predicate for the `audio` counter of the metadata loop. -/
def isCountedAudio (m : Message) : Bool :=
  (pyTruthy m.media_type && pyTruthy m.media_path)
    && decide (m.media_type = some "audio")

/-- Specification predicate for the `video` counter of the metadata loop. -/
def isCountedVideo (m : Message) : Bool :=
  (pyTruthy m.media_type && pyTruthy m.media_path)
    && decide (m.media_type = some "video")

/-- Specification predicate for the `documents` counter of the metadata
loop. -/
def isCountedDocument (m : Message) : Bool :=
  (pyTruthy m.media_type && pyTruthy m.media_path)
    && decide (m.media_type = some "document")

/-- Sample text-only message used as a concrete input in witnesses. -/
def sampleMsg (i d : Int) : Message :=
  { id := i, date := d, sender_id := 0, sender_name := "A", text := "" }

/-- Sample photo message with a downloaded media path, used in witnesses. -/
def samplePhotoMsg : Message :=
  { id := 1, date := 0, sender_id := 0, sender_name := "A", text := ""
    media_type := some "photo", media_path := some "media/images/p.jpg" }

/-- Sample stored message dict used as a concrete input in witnesses. -/
def sampleStored (i : Int) : StoredMessage :=
  { id := i, date := "2025-01-15T10:00:00+00:00", sender_id := 1,
    sender_name := "A", text := "x" }

/-- Claim C3 (code bug): the `Message` dataclass of downloader.py declares no
`transcription` field, yet `dict_to_message` passes a `transcription` keyword
to the `Message` constructor and `message_to_dict` reads `msg.transcription`;
in Python the former raises `TypeError` and the latter raises
`AttributeError` on any `Message` built by `parse_message`. -/
theorem message_lacks_transcription_field :
    "transcription" ∉ message_field_names
    ∧ "transcription" ∈ dict_to_message_kwargs
    ∧ "transcription" ∈ message_to_dict_attrs := by
  decide

/-- Claim C2 (code bug): in sync mode with highest saved id `lastId > 0` the
CLI computes `min_id = lastId` and `reverse = True` for the fetch, but
`MessageDownloader.download_messages` accepts neither a `min_id` nor a
`reverse` parameter, so the keyword call raises `TypeError` instead of
fetching only newer messages. -/
theorem sync_fetch_uses_unaccepted_kwargs (lastId : Int) (h : 0 < lastId) :
    cli_sync_fetch_args false true lastId = (some lastId, true)
    ∧ "min_id" ∈ cli_download_call_kwargs
    ∧ "reverse" ∈ cli_download_call_kwargs
    ∧ "min_id" ∉ download_messages_params
    ∧ "reverse" ∉ download_messages_params := by
  refine ⟨?_, by decide, by decide, by decide, by decide⟩
  simp [cli_sync_fetch_args, h]

/-- Witness for claim C2 at the concrete highest saved id 42. -/
theorem sync_fetch_uses_unaccepted_kwargs_witness :
    (0 : Int) < 42
    ∧ (cli_sync_fetch_args false true 42 = (some 42, true)
      ∧ "min_id" ∈ cli_download_call_kwargs
      ∧ "reverse" ∈ cli_download_call_kwargs
      ∧ "min_id" ∉ download_messages_params
      ∧ "reverse" ∉ download_messages_params) :=
  ⟨by decide, sync_fetch_uses_unaccepted_kwargs 42 (by decide)⟩

/-- Claim C8: `get_chat_type` is a total function of the class name and the
optional broadcast flag, mapping User to private, Chat to group, Channel with
broadcast to channel, Channel without broadcast (set false or missing) to
group, and everything else to unknown; its value always lies in the four
chat-type constants. -/
theorem get_chat_type_spec (e : TelegramEntity) :
    (e.className = "User" → get_chat_type e = CHAT_TYPE_PRIVATE)
    ∧ (e.className = "Chat" → get_chat_type e = CHAT_TYPE_GROUP)
    ∧ (e.className = "Channel" → e.broadcast.getD false = true →
        get_chat_type e = CHAT_TYPE_CHANNEL)
    ∧ (e.className = "Channel" → e.broadcast.getD false = false →
        get_chat_type e = CHAT_TYPE_GROUP)
    ∧ (e.className ≠ "User" → e.className ≠ "Chat" → e.className ≠ "Channel" →
        get_chat_type e = CHAT_TYPE_UNKNOWN)
    ∧ (get_chat_type e = CHAT_TYPE_PRIVATE ∨ get_chat_type e = CHAT_TYPE_GROUP
        ∨ get_chat_type e = CHAT_TYPE_CHANNEL
        ∨ get_chat_type e = CHAT_TYPE_UNKNOWN) := by
  refine ⟨?_, ?_, ?_, ?_, ?_, ?_⟩
  · intro h; simp [get_chat_type, h]
  · intro h; simp [get_chat_type, h]
  · intro h hb; simp [get_chat_type, h, hb]
  · intro h hb; simp [get_chat_type, h, hb]
  · intro h1 h2 h3; simp [get_chat_type, h1, h2, h3]
  · unfold get_chat_type
    split_ifs <;> simp

/-- Witness for claim C8: a Channel entity with a missing broadcast
attribute is classified as a group, and a User entity as private. -/
theorem get_chat_type_spec_witness :
    get_chat_type ⟨"Channel", none⟩ = CHAT_TYPE_GROUP
    ∧ get_chat_type ⟨"User", none⟩ = CHAT_TYPE_PRIVATE :=
  ⟨(get_chat_type_spec ⟨"Channel", none⟩).2.2.2.1 rfl rfl,
   (get_chat_type_spec ⟨"User", none⟩).1 rfl⟩

/-- Folding `min` over a list yields an element of the seed-extended list. -/
theorem foldl_min_mem (ds : List Int) (d : Int) : ds.foldl min d ∈ d :: ds := by
  induction ds generalizing d with
  | nil => simp
  | cons x xs ih =>
    simp only [List.foldl_cons]
    rcases List.mem_cons.mp (ih (min d x)) with h | h
    · rw [h]
      rcases min_choice d x with hc | hc <;> simp [hc]
    · simp [h]

/-- Folding `min` over a list bounds every element of the seed-extended
list from below. -/
theorem foldl_min_le (ds : List Int) (d : Int) :
    ∀ x ∈ d :: ds, ds.foldl min d ≤ x := by
  induction ds generalizing d with
  | nil =>
    intro x hx
    simp only [List.mem_cons, List.not_mem_nil, or_false] at hx
    simp [hx]
  | cons y ys ih =>
    intro x hx
    simp only [List.foldl_cons]
    have hle : ys.foldl min (min d y) ≤ min d y := ih (min d y) (min d y) (by simp)
    rcases List.mem_cons.mp hx with h | h
    · rw [h]; exact le_trans hle (min_le_left _ _)
    · rcases List.mem_cons.mp h with h2 | h2
      · rw [h2]; exact le_trans hle (min_le_right _ _)
      · exact ih (min d y) x (List.mem_cons_of_mem _ h2)

/-- Folding `max` over a list yields an element of the seed-extended list. -/
theorem foldl_max_mem (ds : List Int) (d : Int) : ds.foldl max d ∈ d :: ds := by
  induction ds generalizing d with
  | nil => simp
  | cons x xs ih =>
    simp only [List.foldl_cons]
    rcases List.mem_cons.mp (ih (max d x)) with h | h
    · rw [h]
      rcases max_choice d x with hc | hc <;> simp [hc]
    · simp [h]

/-- Folding `max` over a list bounds every element of the seed-extended
list from above. -/
theorem foldl_max_le (ds : List Int) (d : Int) :
    ∀ x ∈ d :: ds, x ≤ ds.foldl max d := by
  induction ds generalizing d with
  | nil =>
    intro x hx
    simp only [List.mem_cons, List.not_mem_nil, or_false] at hx
    simp [hx]
  | cons y ys ih =>
    intro x hx
    simp only [List.foldl_cons]
    have hle : max d y ≤ ys.foldl max (max d y) := ih (max d y) (max d y) (by simp)
    rcases List.mem_cons.mp hx with h | h
    · rw [h]; exact le_trans (le_max_left _ _) hle
    · rcases List.mem_cons.mp h with h2 | h2
      · rw [h2]; exact le_trans (le_max_right _ _) hle
      · exact ih (max d y) x (List.mem_cons_of_mem _ h2)

/-- Python `min` of a nonempty list is a least element. -/
theorem listMinPy_spec (l : List Int) (a : Int) (h : listMinPy l = some a) :
    a ∈ l ∧ ∀ x ∈ l, a ≤ x := by
  cases l with
  | nil => simp [listMinPy] at h
  | cons d ds =>
    simp only [listMinPy, Option.some_inj] at h
    subst h
    exact ⟨foldl_min_mem ds d, foldl_min_le ds d⟩

/-- Python `max` of a nonempty list is a greatest element. -/
theorem listMaxPy_spec (l : List Int) (a : Int) (h : listMaxPy l = some a) :
    a ∈ l ∧ ∀ x ∈ l, x ≤ a := by
  cases l with
  | nil => simp [listMaxPy] at h
  | cons d ds =>
    simp only [listMaxPy, Option.some_inj] at h
    subst h
    exact ⟨foldl_max_mem ds d, foldl_max_le ds d⟩

/-- Python `min` of a list is `None` exactly on the empty list. -/
theorem listMinPy_eq_none_iff (l : List Int) : listMinPy l = none ↔ l = [] := by
  cases l <;> simp [listMinPy]

/-- Python `max` of a list is `None` exactly on the empty list. -/
theorem listMaxPy_eq_none_iff (l : List Int) : listMaxPy l = none ↔ l = [] := by
  cases l <;> simp [listMaxPy]

/-- Python `min` of a list is invariant under permutation. -/
theorem listMinPy_perm {l l' : List Int} (h : l.Perm l') :
    listMinPy l = listMinPy l' := by
  cases hl : listMinPy l with
  | none =>
    have : l = [] := (listMinPy_eq_none_iff l).mp hl
    subst this
    have : l' = [] := h.symm.eq_nil
    subst this
    rfl
  | some a =>
    cases hl' : listMinPy l' with
    | none =>
      have : l' = [] := (listMinPy_eq_none_iff l').mp hl'
      subst this
      have : l = [] := h.eq_nil
      subst this
      simp [listMinPy] at hl
    | some b =>
      obtain ⟨ha, hale⟩ := listMinPy_spec l a hl
      obtain ⟨hb, hble⟩ := listMinPy_spec l' b hl'
      have h1 : a ≤ b := hale b (h.mem_iff.mpr hb)
      have h2 : b ≤ a := hble a (h.mem_iff.mp ha)
      rw [le_antisymm h1 h2]

/-- Python `max` of a list is invariant under permutation. -/
theorem listMaxPy_perm {l l' : List Int} (h : l.Perm l') :
    listMaxPy l = listMaxPy l' := by
  cases hl : listMaxPy l with
  | none =>
    have : l = [] := (listMaxPy_eq_none_iff l).mp hl
    subst this
    have : l' = [] := h.symm.eq_nil
    subst this
    rfl
  | some a =>
    cases hl' : listMaxPy l' with
    | none =>
      have : l' = [] := (listMaxPy_eq_none_iff l').mp hl'
      subst this
      have : l = [] := h.eq_nil
      subst this
      simp [listMaxPy] at hl
    | some b =>
      obtain ⟨ha, hale⟩ := listMaxPy_spec l a hl
      obtain ⟨hb, hble⟩ := listMaxPy_spec l' b hl'
      have h1 : b ≤ a := hale b (h.mem_iff.mpr hb)
      have h2 : a ≤ b := hble a (h.mem_iff.mp ha)
      rw [le_antisymm h2 h1]

/-- Claim C9: `load_existing_messages` returns the empty list with highest
id 0 exactly when the file is missing, the messages key is absent, or the
messages list is empty; on a nonempty list it returns the stored dicts
unchanged together with the maximum id among them. -/
theorem load_existing_messages_spec (file : Option (Option (List StoredMessage))) :
    (load_existing_messages file = ([], 0)
      ↔ file = none ∨ file = some none ∨ file = some (some []))
    ∧ ∀ msgs, file = some (some msgs) → msgs ≠ [] →
      (load_existing_messages file).1 = msgs
      ∧ (load_existing_messages file).2 ∈ msgs.map StoredMessage.id
      ∧ ∀ i ∈ msgs.map StoredMessage.id, i ≤ (load_existing_messages file).2 := by
  rcases file with _ | data
  · constructor
    · simp [load_existing_messages]
    · intro msgs h
      exact absurd h (by simp)
  · rcases data with _ | msgs
    · constructor
      · simp [load_existing_messages]
      · intro msgs h
        exact absurd h (by simp)
    · rcases msgs with _ | ⟨m, ms⟩
      · constructor
        · simp [load_existing_messages]
        · intro msgs h hne
          have : msgs = [] := by
            simpa using h.symm
          exact absurd this hne
      · constructor
        · simp [load_existing_messages]
        · intro msgs h hne
          have hmsgs : msgs = m :: ms := by
            simpa using h.symm
          subst hmsgs
          refine ⟨rfl, ?_, ?_⟩
          · have := foldl_max_mem (ms.map StoredMessage.id) m.id
            simpa [load_existing_messages] using this
          · intro i hi
            have := foldl_max_le (ms.map StoredMessage.id) m.id i (by simpa using hi)
            simpa [load_existing_messages] using this

/-- Witness for claim C9 at the stored ids 5, 10, 7: the whole list is
returned and the highest id 10 (not the last id 7) is a maximum. -/
theorem load_existing_messages_spec_witness :
    (load_existing_messages
        (some (some [sampleStored 5, sampleStored 10, sampleStored 7]))).1
      = [sampleStored 5, sampleStored 10, sampleStored 7]
    ∧ (load_existing_messages
        (some (some [sampleStored 5, sampleStored 10, sampleStored 7]))).2
      ∈ [sampleStored 5, sampleStored 10, sampleStored 7].map StoredMessage.id
    ∧ (load_existing_messages
        (some (some [sampleStored 5, sampleStored 10, sampleStored 7]))).2 = 10 :=
  ⟨((load_existing_messages_spec _).2 _ rfl (by simp)).1,
   ((load_existing_messages_spec _).2 _ rfl (by simp)).2.1,
   by decide⟩

/-- Stripping characters from both ends only removes characters: membership
in the stripped list implies membership in the original. -/
theorem mem_pyStrip {ws s : List Char} {c : Char} (h : c ∈ pyStrip ws s) :
    c ∈ s := by
  unfold pyStrip at h
  rw [List.mem_reverse] at h
  have h2 := (List.dropWhile_sublist _).mem h
  rw [List.mem_reverse] at h2
  exact (List.dropWhile_sublist _).mem h2

/-- Counterexample to claim C7: the sanitizer the download command actually
applies to the chat directory name, `_sanitize_filename` of cli.py, can
produce the empty string (a name of a single space) and retains control
characters (the character with code 1 passes through unchanged). -/
theorem cli_sanitize_filename_counterexample :
    cli_sanitize_filename [' '] = []
    ∧ cli_sanitize_filename ['\u0001'] = ['\u0001'] := by
  constructor <;> rfl

/-- Claim C7 as amended: `utils.sanitize_filename` yields a nonempty name
free of the nine invalid characters and of the control range x00-x1f for
every input, but the sanitizer the download command applies,
`_sanitize_filename` of cli.py, only guarantees absence of the nine invalid
characters: it can return the empty string and keeps control characters. -/
theorem sanitize_filename_amended (name : List Char) :
    (sanitize_filename name ≠ []
      ∧ ∀ c ∈ sanitize_filename name,
          c ∉ INVALID_FILENAME_CHARS ∧ 0x1f < c.toNat)
    ∧ ∀ c ∈ cli_sanitize_filename name, c ∉ INVALID_FILENAME_CHARS := by
  have hunnamed : ∀ x ∈ "unnamed".toList,
      x ∉ INVALID_FILENAME_CHARS ∧ 0x1f < x.toNat := by decide
  refine ⟨⟨?_, ?_⟩, ?_⟩
  · simp only [sanitize_filename]
    split_ifs with h1 h2
    · decide
    · decide
    · exact h2
  · intro c hc
    simp only [sanitize_filename] at hc
    split_ifs at hc with h1 h2
    · exact hunnamed c hc
    · exact hunnamed c hc
    · have hmem := mem_pyStrip hc
      rcases List.mem_map.mp hmem with ⟨a, _, ha⟩
      by_cases hinv : utilsInvalidChar a = true
      · rw [hinv] at ha
        simp only [if_true] at ha
        subst ha
        decide
      · rw [Bool.not_eq_true] at hinv
        rw [hinv] at ha
        simp only [Bool.false_eq_true, if_false] at ha
        subst ha
        unfold utilsInvalidChar at hinv
        simp only [Bool.or_eq_false_iff, decide_eq_false_iff_not, not_le] at hinv
        exact ⟨hinv.1, hinv.2⟩
  · intro c hc
    unfold cli_sanitize_filename at hc
    have hmem := mem_pyStrip hc
    rcases List.mem_map.mp hmem with ⟨a, _, ha⟩
    by_cases hinv : a ∈ INVALID_FILENAME_CHARS
    · rw [if_pos hinv] at ha
      subst ha
      decide
    · rw [if_neg hinv] at ha
      subst ha
      exact hinv

/-- Witness for the amended claim C7 at the concrete name consisting of a
single invalid character: the utils sanitizer yields a nonempty name and the
replacement underscore is clean. -/
theorem sanitize_filename_amended_witness :
    sanitize_filename ['<'] ≠ []
    ∧ ('_' ∉ INVALID_FILENAME_CHARS ∧ 0x1f < '_'.toNat) :=
  ⟨(sanitize_filename_amended ['<']).1.1,
   (sanitize_filename_amended ['<']).1.2 '_' (by decide)⟩

/-- Claim C5: each command terminates with exit code 0 exactly on success
(its async body completes and its input validation passes), and with exit
code 1 on every handled error: auth failure or any exception in `auth`;
conflicting filter options or any exception in `list`; missing chat
name/id, invalid date, chat not found, or any exception in `download`. -/
theorem cli_exit_codes (g p c : Bool) (chat : String) (chatId : Option Int)
    (fromDateValid toDateValid : Option Bool) (r : AsyncOutcome) :
    (cli_main (auth_command r) = if r = AsyncOutcome.success then 0 else 1)
    ∧ (cli_main (list_command g p c r) = 0 ∨ cli_main (list_command g p c r) = 1)
    ∧ (cli_main (list_command g p c r) = 0 ↔
        ¬((if g then 1 else 0) + (if p then 1 else 0) + (if c then 1 else 0) > 1)
          ∧ r = AsyncOutcome.success)
    ∧ (cli_main (download_command chat chatId fromDateValid toDateValid r) = 0
        ∨ cli_main (download_command chat chatId fromDateValid toDateValid r) = 1)
    ∧ (cli_main (download_command chat chatId fromDateValid toDateValid r) = 0 ↔
        ¬(chat = "" ∧ chatId = none) ∧ fromDateValid ≠ some false
          ∧ toDateValid ≠ some false ∧ r = AsyncOutcome.success) := by
  refine ⟨?_, ?_, ?_, ?_, ?_⟩
  · cases r <;> rfl
  · simp only [list_command, cli_main]
    split_ifs <;> cases r <;> simp
  · simp only [list_command, cli_main]
    split_ifs with h <;> cases r <;> simp [h] <;> omega
  · simp only [download_command, cli_main]
    split_ifs <;> cases r <;> simp
  · simp only [download_command, cli_main]
    split_ifs with h1 h2 h3 <;> cases r <;> simp_all

/-- Witness for claim C5 at a successful download invocation with a chat
name, no filters and a successful async body. -/
theorem cli_exit_codes_witness :
    (cli_main (auth_command AsyncOutcome.success)
        = if AsyncOutcome.success = AsyncOutcome.success then 0 else 1)
    ∧ (cli_main (list_command false false false AsyncOutcome.success) = 0
        ∨ cli_main (list_command false false false AsyncOutcome.success) = 1)
    ∧ (cli_main (list_command false false false AsyncOutcome.success) = 0 ↔
        ¬((if false then 1 else 0) + (if false then 1 else 0)
            + (if false then 1 else 0) > 1)
          ∧ AsyncOutcome.success = AsyncOutcome.success)
    ∧ (cli_main (download_command "My Chat" none none none AsyncOutcome.success)
          = 0
        ∨ cli_main (download_command "My Chat" none none none
            AsyncOutcome.success) = 1)
    ∧ (cli_main (download_command "My Chat" none none none AsyncOutcome.success)
          = 0 ↔
        ¬("My Chat" = "" ∧ (none : Option Int) = none)
          ∧ (none : Option Bool) ≠ some false ∧ (none : Option Bool) ≠ some false
          ∧ AsyncOutcome.success = AsyncOutcome.success) :=
  cli_exit_codes false false false "My Chat" none none none AsyncOutcome.success

/-- The media-download loop returns an exception as soon as the per-item
results contain one: a raising media download aborts the loop. -/
theorem media_download_loop_error_of_mem
    (l : List (Except Unit (Option String))) (h : Except.error () ∈ l) :
    media_download_loop l = Except.error () := by
  induction l with
  | nil => simp at h
  | cons r rs ih =>
    rcases List.mem_cons.mp h with h1 | h1
    · rw [← h1]
      rfl
    · rcases r with e | o
      · cases e
        rfl
      · rcases o with _ | s
        · simpa [media_download_loop] using ih h1
        · simp only [media_download_loop]
          rw [ih h1]

/-- Counterexample to claim C4: a media download that raises an exception is
not skipped; the loop aborts before processing the remaining item, so the
run fails instead of continuing to the exports. -/
theorem media_download_abort_counterexample :
    media_download_loop
        [Except.error (), Except.ok (some "media/images/a.jpg")]
      = Except.error () := rfl

/-- Claim C4 as amended: a media download returning None and a failed
transcription are skipped without aborting the run (every remaining item is
processed; only successful media downloads are counted, while transcription
successes and failures are both counted, and the transcriber turns any
exception into None); but a media download that raises an exception
propagates and aborts the run. -/
theorem per_item_failure_handling (rs ts : List (Option String))
    (l : List (Except Unit (Option String))) :
    media_download_loop (rs.map Except.ok) = Except.ok (rs.countP Option.isSome)
    ∧ (Except.error () ∈ l → media_download_loop l = Except.error ())
    ∧ (transcribe_loop ts).1 = ts.countP Option.isSome
    ∧ (transcribe_loop ts).2 = ts.countP Option.isNone
    ∧ (transcribe_loop ts).1 + (transcribe_loop ts).2 = ts.length
    ∧ transcribe_voice_message (Except.error ()) = none := by
  refine ⟨?_, media_download_loop_error_of_mem l, ?_, ?_, ?_, rfl⟩
  · induction rs with
    | nil => rfl
    | cons r rs ih =>
      rcases r with _ | s
      · simpa [media_download_loop, List.countP_cons] using ih
      · simp [media_download_loop, List.countP_cons, ih]
  · induction ts with
    | nil => rfl
    | cons t ts ih =>
      rcases t with _ | s <;> simp [transcribe_loop, List.countP_cons, ih]
  · induction ts with
    | nil => rfl
    | cons t ts ih =>
      rcases t with _ | s <;> simp [transcribe_loop, List.countP_cons, ih]
  · induction ts with
    | nil => rfl
    | cons t ts ih =>
      rcases t with _ | s <;> simp [transcribe_loop, ih] <;> omega

/-- Witness for the amended claim C4 at concrete per-item results: one
failed and one successful media download, one failed and one successful
transcription. -/
theorem per_item_failure_handling_witness :
    media_download_loop
        ([none, some "media/images/a.jpg"].map Except.ok)
      = Except.ok ([none, some "media/images/a.jpg"].countP Option.isSome)
    ∧ (Except.error () ∈ ([Except.error ()] :
          List (Except Unit (Option String))) →
        media_download_loop [Except.error ()] = Except.error ())
    ∧ (transcribe_loop [none, some "hello"]).1
        = [none, some "hello"].countP Option.isSome
    ∧ (transcribe_loop [none, some "hello"]).2
        = [none, some "hello"].countP Option.isNone
    ∧ (transcribe_loop [none, some "hello"]).1
        + (transcribe_loop [none, some "hello"]).2
        = [none, some "hello"].length
    ∧ transcribe_voice_message (Except.error ()) = none :=
  per_item_failure_handling [none, some "media/images/a.jpg"]
    [none, some "hello"] [Except.error ()]

/-- Claim C6: `generate_metadata` reports `total_messages` equal to the
number of messages and a date range consisting of the minimum and maximum
message date (both None exactly when there are no messages), and both the
total and the range are independent of the input order. -/
theorem generate_metadata_spec (l l' : List Message) (hperm : l.Perm l') :
    (generate_metadata l).total_messages = l.length
    ∧ (l = [] → (generate_metadata l).date_from = none
        ∧ (generate_metadata l).date_to = none)
    ∧ (l ≠ [] → ∃ a b, (generate_metadata l).date_from = some a
        ∧ (generate_metadata l).date_to = some b
        ∧ a ∈ l.map Message.date ∧ b ∈ l.map Message.date
        ∧ ∀ d ∈ l.map Message.date, a ≤ d ∧ d ≤ b)
    ∧ (generate_metadata l').total_messages = (generate_metadata l).total_messages
    ∧ (generate_metadata l').date_from = (generate_metadata l).date_from
    ∧ (generate_metadata l').date_to = (generate_metadata l).date_to := by
  refine ⟨rfl, ?_, ?_, ?_, ?_, ?_⟩
  · intro h
    subst h
    exact ⟨rfl, rfl⟩
  · intro h
    have hmap : l.map Message.date ≠ [] := by
      simpa using h
    cases hmin : listMinPy (l.map Message.date) with
    | none => exact absurd ((listMinPy_eq_none_iff _).mp hmin) hmap
    | some a =>
      cases hmax : listMaxPy (l.map Message.date) with
      | none => exact absurd ((listMaxPy_eq_none_iff _).mp hmax) hmap
      | some b =>
        obtain ⟨hamem, hale⟩ := listMinPy_spec _ a hmin
        obtain ⟨hbmem, hble⟩ := listMaxPy_spec _ b hmax
        exact ⟨a, b, hmin, hmax, hamem, hbmem,
          fun d hd => ⟨hale d hd, hble d hd⟩⟩
  · simpa [generate_metadata] using hperm.length_eq.symm
  · simpa [generate_metadata] using (listMinPy_perm (hperm.map Message.date)).symm
  · simpa [generate_metadata] using (listMaxPy_perm (hperm.map Message.date)).symm

/-- Witness for claim C6 at two concrete message lists that are reorderings
of each other. -/
theorem generate_metadata_spec_witness :
    (generate_metadata [sampleMsg 1 20, sampleMsg 2 10]).total_messages
        = [sampleMsg 1 20, sampleMsg 2 10].length
    ∧ (generate_metadata [sampleMsg 2 10, sampleMsg 1 20]).total_messages
        = (generate_metadata [sampleMsg 1 20, sampleMsg 2 10]).total_messages
    ∧ (generate_metadata [sampleMsg 2 10, sampleMsg 1 20]).date_from
        = (generate_metadata [sampleMsg 1 20, sampleMsg 2 10]).date_from
    ∧ (generate_metadata [sampleMsg 2 10, sampleMsg 1 20]).date_to
        = (generate_metadata [sampleMsg 1 20, sampleMsg 2 10]).date_to :=
  ⟨(generate_metadata_spec [sampleMsg 1 20, sampleMsg 2 10]
      [sampleMsg 2 10, sampleMsg 1 20] (by decide)).1,
   (generate_metadata_spec [sampleMsg 1 20, sampleMsg 2 10]
      [sampleMsg 2 10, sampleMsg 1 20] (by decide)).2.2.2.1,
   (generate_metadata_spec [sampleMsg 1 20, sampleMsg 2 10]
      [sampleMsg 2 10, sampleMsg 1 20] (by decide)).2.2.2.2.1,
   (generate_metadata_spec [sampleMsg 1 20, sampleMsg 2 10]
      [sampleMsg 2 10, sampleMsg 1 20] (by decide)).2.2.2.2.2⟩

/-- The images component of one counting step increments exactly on a
counted photo. -/
theorem countMediaStep_images (c : MediaCounts) (m : Message) :
    (countMediaStep c m).images
      = c.images + (if isCountedPhoto m then 1 else 0) := by
  unfold countMediaStep isCountedPhoto
  split_ifs <;> simp_all [pyTruthy, String.isEmpty_iff]

/-- The audio component of one counting step increments exactly on a
counted audio message. -/
theorem countMediaStep_audio (c : MediaCounts) (m : Message) :
    (countMediaStep c m).audio
      = c.audio + (if isCountedAudio m then 1 else 0) := by
  unfold countMediaStep isCountedAudio
  split_ifs <;> simp_all [pyTruthy, String.isEmpty_iff]

/-- The video component of one counting step increments exactly on a
counted video message. -/
theorem countMediaStep_video (c : MediaCounts) (m : Message) :
    (countMediaStep c m).video
      = c.video + (if isCountedVideo m then 1 else 0) := by
  unfold countMediaStep isCountedVideo
  split_ifs <;> simp_all [pyTruthy, String.isEmpty_iff]

/-- The documents component of one counting step increments exactly on a
counted document. -/
theorem countMediaStep_documents (c : MediaCounts) (m : Message) :
    (countMediaStep c m).documents
      = c.documents + (if isCountedDocument m then 1 else 0) := by
  unfold countMediaStep isCountedDocument
  split_ifs <;> simp_all [pyTruthy, String.isEmpty_iff]

/-- The media-counting loop computes, per category, the number of messages
whose truthiness guard passes and whose media type matches. -/
theorem countMedia_eq (l : List Message) :
    countMedia l =
      { images := l.countP isCountedPhoto
        audio := l.countP isCountedAudio
        video := l.countP isCountedVideo
        documents := l.countP isCountedDocument } := by
  unfold countMedia
  have key : ∀ (l : List Message) (c : MediaCounts),
      l.foldl countMediaStep c =
        { images := c.images + l.countP isCountedPhoto
          audio := c.audio + l.countP isCountedAudio
          video := c.video + l.countP isCountedVideo
          documents := c.documents + l.countP isCountedDocument } := by
    intro l
    induction l with
    | nil => intro c; simp
    | cons m l ih =>
      intro c
      rw [List.foldl_cons, ih]
      simp only [countMediaStep_images, countMediaStep_audio,
        countMediaStep_video, countMediaStep_documents, List.countP_cons,
        MediaCounts.mk.injEq]
      refine ⟨by ring, by ring, by ring, by ring⟩
  rw [key]
  simp

/-- Claim C10: in both the markdown media count and the metadata media
counts, a message is counted only when both its media type and its media
path are non-null; a message with a null media path contributes zero to
every count, and a truthiness-passing photo message is counted exactly under
the images key, leaving the other three counters unchanged. -/
theorem media_counts_truthiness (m : Message) (pre post : List Message) :
    (∀ msg : Message,
        (pyTruthy msg.media_type && pyTruthy msg.media_path) = true →
          msg.media_type ≠ none ∧ msg.media_path ≠ none)
    ∧ (m.media_path = none →
        markdownMediaCount (pre ++ m :: post) = markdownMediaCount (pre ++ post)
        ∧ countMedia (pre ++ m :: post) = countMedia (pre ++ post))
    ∧ (m.media_type = some "photo" → pyTruthy m.media_path = true →
        countMedia (pre ++ m :: post)
          = { countMedia (pre ++ post) with
              images := (countMedia (pre ++ post)).images + 1 }) := by
  refine ⟨?_, ?_, ?_⟩
  · intro msg h
    rw [Bool.and_eq_true] at h
    constructor
    · intro hn
      rw [hn] at h
      simp [pyTruthy] at h
    · intro hn
      rw [hn] at h
      simp [pyTruthy] at h
  · intro h
    constructor
    · unfold markdownMediaCount
      rw [List.countP_append, List.countP_append, List.countP_cons]
      simp [h, pyTruthy]
    · rw [countMedia_eq, countMedia_eq]
      simp only [isCountedPhoto, isCountedAudio, isCountedVideo,
        isCountedDocument, List.countP_append, List.countP_cons, h,
        MediaCounts.mk.injEq]
      simp [pyTruthy]
  · intro ht hp
    have hph : ("photo".isEmpty = false) := by decide
    rw [countMedia_eq, countMedia_eq]
    simp only [isCountedPhoto, isCountedAudio, isCountedVideo,
      isCountedDocument, List.countP_append, List.countP_cons, ht, hp,
      MediaCounts.mk.injEq]
    simp [pyTruthy, hph]
    all_goals omega

/-- Witness for claim C10 at a concrete photo message with a downloaded
path: it is counted once under images and nowhere else. -/
theorem media_counts_truthiness_witness :
    samplePhotoMsg.media_type = some "photo"
    ∧ pyTruthy samplePhotoMsg.media_path = true
    ∧ countMedia ([] ++ samplePhotoMsg :: [])
        = { countMedia ([] ++ ([] : List Message)) with
            images := (countMedia ([] ++ ([] : List Message))).images + 1 } :=
  ⟨rfl, rfl, (media_counts_truthiness samplePhotoMsg [] []).2.2 rfl rfl⟩

/-- Claim C1: for any existing messages whose ids are exactly 1 and 2 and
any newly fetched messages whose ids are exactly 2 and 3, the sync merge of
the download command keeps the existing messages, appends only the new
message whose id is not already present, and sorts by date: the result has
ids exactly 1, 2, 3 with no duplicates and is ordered by ascending
timestamp. -/
theorem syncMerge_sync_of_ids (existing newMsgs : List Message)
    (hex : (existing.map Message.id).Perm [1, 2])
    (hnew : (newMsgs.map Message.id).Perm [2, 3]) :
    ((syncMerge existing newMsgs).map Message.id).Perm [1, 2, 3]
    ∧ ((syncMerge existing newMsgs).map Message.id).Nodup
    ∧ List.Pairwise (fun a b => a.date ≤ b.date) (syncMerge existing newMsgs) := by
  have hdef : syncMerge existing newMsgs
      = (existing ++ newMsgs.filter fun m =>
          decide (m.id ∉ existing.map Message.id)).mergeSort
        (fun a b => decide (a.date ≤ b.date)) := rfl
  have h2 : (2 : Int) ∈ existing.map Message.id := hex.mem_iff.mpr (by simp)
  have h3 : (3 : Int) ∉ existing.map Message.id := by
    intro hmem
    have := hex.mem_iff.mp hmem
    simp at this
  have hp2 : (decide ((2 : Int) ∉ existing.map Message.id)) = false := by
    simp [h2]
  have hp3 : (decide ((3 : Int) ∉ existing.map Message.id)) = true := by
    simp [h3]
  have hfilmap : (newMsgs.filter fun m =>
        decide (m.id ∉ existing.map Message.id)).map Message.id
      = (newMsgs.map Message.id).filter fun i =>
          decide (i ∉ existing.map Message.id) :=
    (@List.filter_map Message Int
      (fun i => decide (i ∉ existing.map Message.id)) Message.id newMsgs).symm
  have hfil : ((newMsgs.map Message.id).filter fun i =>
        decide (i ∉ existing.map Message.id)).Perm
      (([2, 3] : List Int).filter fun i =>
        decide (i ∉ existing.map Message.id)) :=
    hnew.filter _
  have hconc : (([2, 3] : List Int).filter fun i =>
      decide (i ∉ existing.map Message.id)) = [3] := by
    simp only [List.filter_cons, List.filter_nil, hp2, hp3]
    simp
  have hnu : ((newMsgs.filter fun m =>
      decide (m.id ∉ existing.map Message.id)).map Message.id).Perm [3] := by
    rw [hfilmap]
    rw [hconc] at hfil
    exact hfil
  have hperm : (syncMerge existing newMsgs).Perm
      (existing ++ newMsgs.filter fun m =>
        decide (m.id ∉ existing.map Message.id)) := by
    rw [hdef]
    exact List.mergeSort_perm _ _
  have hall : ((existing ++ newMsgs.filter fun m =>
      decide (m.id ∉ existing.map Message.id)).map Message.id).Perm
      [1, 2, 3] := by
    rw [List.map_append]
    exact hex.append hnu
  have hmap : ((syncMerge existing newMsgs).map Message.id).Perm [1, 2, 3] :=
    (hperm.map Message.id).trans hall
  refine ⟨hmap, hmap.nodup_iff.mpr (by decide), ?_⟩
  rw [hdef]
  have hsorted := @List.sorted_mergeSort Message
    (fun a b => decide (a.date ≤ b.date))
    (fun a b c hab hbc => by
      simp only [decide_eq_true_eq] at hab hbc ⊢
      exact le_trans hab hbc)
    (fun a b => by
      simp only [Bool.or_eq_true, decide_eq_true_eq]
      exact le_total a.date b.date)
    (existing ++ newMsgs.filter fun m =>
      decide (m.id ∉ existing.map Message.id))
  exact hsorted.imp fun h => by simpa using h

/-- Witness for claim C1 at concrete messages with ids 1, 2 among the
existing export and ids 2, 3 among the newly fetched batch. -/
theorem syncMerge_sync_of_ids_witness :
    (([sampleMsg 1 10, sampleMsg 2 20].map Message.id).Perm [1, 2]
      ∧ ([sampleMsg 2 20, sampleMsg 3 30].map Message.id).Perm [2, 3])
    ∧ (((syncMerge [sampleMsg 1 10, sampleMsg 2 20]
          [sampleMsg 2 20, sampleMsg 3 30]).map Message.id).Perm [1, 2, 3]
      ∧ ((syncMerge [sampleMsg 1 10, sampleMsg 2 20]
          [sampleMsg 2 20, sampleMsg 3 30]).map Message.id).Nodup
      ∧ List.Pairwise (fun a b => a.date ≤ b.date)
          (syncMerge [sampleMsg 1 10, sampleMsg 2 20]
            [sampleMsg 2 20, sampleMsg 3 30])) :=
  ⟨⟨by decide, by decide⟩,
   syncMerge_sync_of_ids _ _ (by decide) (by decide)⟩
